import Mathlib

/-!
Verification of the file-batch-to-index pipeline of `app.py`
(`create_faiss_index_from_files`), shallowly embedded in Lean.

External collaborators (the filesystem copy, the directory loader, the
embedding service, the FAISS index build/save, the zip writer) are modelled
by an `Env` oracle supplying their outcomes; the pipeline itself is a pure
function of the module-level `embeddings` initialization flag, the uploaded
file list, and that oracle.  Filesystem side effects are recorded as an
event trace, and a small state machine (`FsState` / `runFs`) interprets a
trace to decide which temporary resources exist afterwards.
-/

/-- An uploaded file handle as handed in by the UI layer: carries its
(temporary) path name, `file_obj.name` in the source. -/
structure FileObj where
  name : String
deriving DecidableEq, Repr

/-- A loaded text document: source filename plus text content
(langchain `Document` with `page_content` and source metadata). -/
structure Document where
  source : String
  content : String
deriving DecidableEq, Repr

/-- Model of `os.path.basename`: the component after the last path separator, i.e.
the longest slash-free suffix of the path. -/
def basename (p : String) : String :=
  ⟨(p.data.reverse.takeWhile (fun c => c ≠ '/')).reverse⟩

/-- The `glob="**/*.txt"` filter of `DirectoryLoader`: does the filename end
in `.txt`? -/
def isTxtFile (b : String) : Bool :=
  b.data.reverse.take 4 == ['t', 'x', 't', '.']

/-- Modelled from the spec: the Chunker, `RecursiveCharacterTextSplitter`
from the langchain library, which is not part of this repository's sources.
Per the spec it is a deterministic pure function producing contiguous
overlapping segments of at most `chunkSize` characters with `overlap`
characters shared between consecutive chunks of the same document.  The
spec's own empty-result policy (a batch of loaded documents may yield zero
chunks) forces an empty document to yield no chunks, which is also the
library's behaviour; a nonempty document shorter than `chunkSize` yields
the single chunk equal to the whole document.  `fuel` bounds the recursion
by the character count. -/
def splitCharsAux (chunkSize step : Nat) : Nat → List Char → List (List Char)
  | _, [] => []
  | 0, l => [l]
  | Nat.succ fuel, l =>
    if l.length ≤ chunkSize then [l]
    else l.take chunkSize :: splitCharsAux chunkSize step fuel (l.drop step)

/-- Modelled from the spec: chunk one text into overlapping segments
(see `splitCharsAux`). -/
def splitText (chunkSize overlap : Nat) (s : String) : List String :=
  if s.data.length = 0 then []
  else (splitCharsAux chunkSize (chunkSize - overlap) s.data.length s.data).map
    (fun l => String.mk l)

/-- Modelled from the spec: `text_splitter.split_documents`, chunking every
document, each chunk keeping
its parent document's source metadata. -/
def splitDocuments (chunkSize overlap : Nat) (docs : List Document) : List Document :=
  (docs.map (fun d => (splitText chunkSize overlap d.content).map
    (fun c => Document.mk d.source c))).flatten

/-- Outcomes of the external collaborators for one pipeline run. -/
structure Env where
  /-- the process-wide temporary-files area, `tempfile.gettempdir()`. -/
  tmpRoot : String
  /-- the name `tempfile.mkdtemp()` returned for the index-save directory. -/
  indexDirName : String
  /-- whether `shutil.copy` raises for the file with this (full) name. -/
  copyFails : String → Bool
  /-- outcome of `TextLoader` for the file with this basename: its text if it
  decodes, `none` if reading fails (skipped under `silent_errors=True`). -/
  decode : String → Option String
  /-- outcome of `FAISS.from_documents` (embedding calls included). -/
  faissBuild : List Document → Except String Unit
  /-- outcome of `vector_store.save_local`. -/
  saveLocal : Except String Unit
  /-- whether `os.path.exists` finds `index.faiss` after the save call. -/
  faissFileExists : Bool
  /-- whether `os.path.exists` finds `index.pkl` after the save call. -/
  pklFileExists : Bool
  /-- writing the two entries into the zip archive: ok or an error. -/
  zipWrite : Except String Unit

/-- One filesystem side effect of a pipeline run. -/
inductive FsEvent where
  | mkUploadDir
  | mkIndexDir
  | copy (base : String)
  | rmUploadDir
  | rmIndexDir
  | writeZip (entries : List String)
  | rmZip
deriving DecidableEq, Repr

/-- Which temporary resources of a run exist: the upload working directory,
the index-save directory, and the archive at the fixed output path (with its
entry names when present). -/
structure FsState where
  uploadDir : Bool
  indexDir : Bool
  zip : Option (List String)
deriving DecidableEq, Repr

def applyEvent (s : FsState) : FsEvent → FsState
  | .mkUploadDir => { s with uploadDir := true }
  | .mkIndexDir => { s with indexDir := true }
  | .copy _ => s
  | .rmUploadDir => { s with uploadDir := false }
  | .rmIndexDir => { s with indexDir := false }
  | .writeZip entries => { s with zip := some entries }
  | .rmZip => { s with zip := none }

/-- Interpret an event trace from a starting filesystem state. -/
def runFs (s : FsState) (t : List FsEvent) : FsState :=
  t.foldl applyEvent s

/-- The filesystem before a run: none of the run's resources exist. -/
def initFs : FsState := ⟨false, false, none⟩

/-- Status strings of `create_faiss_index_from_files`, verbatim. -/
def configErrorStatus : String :=
  "ERROR: Embeddings model could not be initialized. Check API key and logs."

def emptyBatchStatus : String := "Please upload transcript files first."

def copyErrorStatus : String :=
  "Error handling one or more uploaded files during copy."

def noDocsStatus : String :=
  "Could not load any text from the uploaded files. Ensure they are valid .txt files."

def noChunksStatus : String :=
  "Error: No text chunks were generated after splitting the documents."

/-- The `except` branch: `f"An error occurred during processing: {str(e)}"`. -/
def processingErrorStatus (e : String) : String :=
  "An error occurred during processing: " ++ e

/-- The message of the `RuntimeError` raised when the post-save existence
check fails; `index_save_path` is `os.path.join(temp_index_dir, "faiss_index")`. -/
def missingIndexFilesMsg (indexDirName : String) : String :=
  "FAISS index files not found at " ++ indexDirName ++ "/faiss_index after saving."

/-- the success status, `f"Successfully processed {len(files_list)} file(s). Index saved and zipped."` -/
def successStatus (n : Nat) : String :=
  "Successfully processed " ++ toString n ++ " file(s). Index saved and zipped."

/-- the fixed output path: `output_zip_filename = "faiss_index_google.zip"` placed under
`tempfile.gettempdir()`. -/
def outputZipPath (env : Env) : String :=
  env.tmpRoot ++ "/faiss_index_google.zip"

/-- The two fixed in-archive entry names. -/
def zipEntryNames : List String := ["index.faiss", "index.pkl"]

/-- Trace of creating the two scratch directories (`tempfile.TemporaryDirectory()`
then `tempfile.mkdtemp()`). -/
def setupTrace : List FsEvent := [.mkUploadDir, .mkIndexDir]

/-- Trace of the copy loop: one `copy` event per file whose `shutil.copy`
succeeds, in list order; a failing copy only logs. -/
def copyTrace (env : Env) (files : List FileObj) : List FsEvent :=
  files.filterMap (fun f =>
    if env.copyFails f.name then none else some (.copy (basename f.name)))

/-- the `all_files_processed` flag after the copy loop: no copy raised. -/
def allCopiesOk (env : Env) (files : List FileObj) : Bool :=
  files.all (fun f => !(env.copyFails f.name))

/-- Trace of releasing both scratch directories
(`temp_upload_dir.cleanup()` then `shutil.rmtree(temp_index_dir)`). -/
def cleanupTrace : List FsEvent := [.rmUploadDir, .rmIndexDir]

/-- Model of `TextLoader` via `DirectoryLoader(glob="**/*.txt", silent_errors=True)`
applied to one file of the working directory: only `.txt` files are read, and
a file that fails to decode is skipped (`none`) rather than raised. -/
def loadTxtFile (env : Env) (b : String) : Option Document :=
  if isTxtFile b then (env.decode b).map (fun c => Document.mk b c) else none

/-- The distinct basenames present in the working directory after the copy
loop (copying two files with equal basenames overwrites one with the other). -/
def uploadedBasenames (files : List FileObj) : List String :=
  (files.map (fun f => basename f.name)).dedup

/-- Model of `loader.load()`: the documents loaded from the working directory. -/
def documentsOf (env : Env) (files : List FileObj) : List Document :=
  (uploadedBasenames files).filterMap (loadTxtFile env)

/-- Result of one invocation: the status string, the archive path handed to
the caller (or `none`), and the filesystem event trace of the run. -/
structure RunOut where
  status : String
  zipPath : Option String
  trace : List FsEvent
deriving DecidableEq, Repr

/-- Embedding of `create_faiss_index_from_files(files_list)` from `app.py`.
`embInit` is whether the module-level `embeddings` collaborator initialized
(`embeddings is not None`).  Mirrors the source top to bottom: the
`embeddings is None` guard, the empty-list guard, scratch-directory creation,
the copy loop with its collect-then-abort policy, the loader, the splitter
configured with `chunk_size=800, chunk_overlap=180`, the FAISS build, the
save, the post-save existence check, zipping, cleanup, and the `except`
handler that converts any raised error into a status string after removing
the scratch directories and any partially written archive. -/
def create_faiss_index_from_files (embInit : Bool) (files_list : List FileObj)
    (env : Env) : RunOut :=
  if embInit = false then
    ⟨configErrorStatus, none, []⟩
  else if files_list.isEmpty then
    ⟨emptyBatchStatus, none, []⟩
  else if allCopiesOk env files_list = false then
    ⟨copyErrorStatus, none,
      setupTrace ++ copyTrace env files_list ++ cleanupTrace⟩
  else if (documentsOf env files_list).isEmpty then
    ⟨noDocsStatus, none,
      setupTrace ++ copyTrace env files_list ++ cleanupTrace⟩
  else if (splitDocuments 800 180 (documentsOf env files_list)).isEmpty then
    ⟨noChunksStatus, none,
      setupTrace ++ copyTrace env files_list ++ cleanupTrace⟩
  else
    match env.faissBuild (splitDocuments 800 180 (documentsOf env files_list)) with
    | .error e =>
      ⟨processingErrorStatus e, none,
        setupTrace ++ copyTrace env files_list ++ cleanupTrace⟩
    | .ok _ =>
      match env.saveLocal with
      | .error e =>
        ⟨processingErrorStatus e, none,
          setupTrace ++ copyTrace env files_list ++ cleanupTrace⟩
      | .ok _ =>
        if env.faissFileExists = false ∨ env.pklFileExists = false then
          ⟨processingErrorStatus (missingIndexFilesMsg env.indexDirName), none,
            setupTrace ++ copyTrace env files_list ++ cleanupTrace⟩
        else
          match env.zipWrite with
          | .error e =>
            ⟨processingErrorStatus e, none,
              setupTrace ++ copyTrace env files_list ++
                [.writeZip [], .rmUploadDir, .rmIndexDir, .rmZip]⟩
          | .ok _ =>
            ⟨successStatus files_list.length, some (outputZipPath env),
              setupTrace ++ copyTrace env files_list ++
                [.writeZip zipEntryNames, .rmUploadDir, .rmIndexDir]⟩

/-! ### Trace interpretation lemmas -/

theorem runFs_append (s : FsState) (t1 t2 : List FsEvent) :
    runFs s (t1 ++ t2) = runFs (runFs s t1) t2 :=
  List.foldl_append ..

theorem runFs_copyTrace (env : Env) (files : List FileObj) (s : FsState) :
    runFs s (copyTrace env files) = s := by
  induction files generalizing s with
  | nil => rfl
  | cons f t ih =>
    by_cases h : env.copyFails f.name = true
    · have hct : copyTrace env (f :: t) = copyTrace env t := by
        simp [copyTrace, List.filterMap_cons, h]
      rw [hct]
      exact ih s
    · have hct : copyTrace env (f :: t) =
          FsEvent.copy (basename f.name) :: copyTrace env t := by
        simp [copyTrace, List.filterMap_cons, h]
      rw [hct]
      exact ih s

theorem runFs_cleanupTrace (env : Env) (files : List FileObj) (s : FsState) :
    runFs s (setupTrace ++ copyTrace env files ++ cleanupTrace) =
      { s with uploadDir := false, indexDir := false } := by
  rw [runFs_append, runFs_append]
  have h1 : runFs s setupTrace = { s with uploadDir := true, indexDir := true } := rfl
  rw [h1, runFs_copyTrace]
  rfl

theorem runFs_zipFailTrace (env : Env) (files : List FileObj) (s : FsState) :
    runFs s (setupTrace ++ copyTrace env files ++
        [.writeZip [], .rmUploadDir, .rmIndexDir, .rmZip]) =
      ⟨false, false, none⟩ := by
  rw [runFs_append, runFs_append]
  have h1 : runFs s setupTrace = { s with uploadDir := true, indexDir := true } := rfl
  rw [h1, runFs_copyTrace]
  rfl

theorem runFs_successTrace (env : Env) (files : List FileObj) (s : FsState) :
    runFs s (setupTrace ++ copyTrace env files ++
        [.writeZip zipEntryNames, .rmUploadDir, .rmIndexDir]) =
      ⟨false, false, some zipEntryNames⟩ := by
  rw [runFs_append, runFs_append]
  have h1 : runFs s setupTrace = { s with uploadDir := true, indexDir := true } := rfl
  rw [h1, runFs_copyTrace]
  rfl

/-! ### Claims -/

/-- C1: every temporary filesystem resource created by a run of
`create_faiss_index_from_files` (upload working directory, index-save
directory, any partially written archive) is gone when the function returns,
on the success path and on every failure path; the archive at the fixed
output path remains exactly when the run succeeds and returns it. -/
theorem cleanup_invariant (embInit : Bool) (files : List FileObj) (env : Env) :
    (runFs initFs (create_faiss_index_from_files embInit files env).trace).uploadDir = false ∧
    (runFs initFs (create_faiss_index_from_files embInit files env).trace).indexDir = false ∧
    (((create_faiss_index_from_files embInit files env).zipPath = none ∧
      (runFs initFs (create_faiss_index_from_files embInit files env).trace).zip = none) ∨
     ((create_faiss_index_from_files embInit files env).zipPath = some (outputZipPath env) ∧
      (runFs initFs (create_faiss_index_from_files embInit files env).trace).zip =
        some zipEntryNames)) := by
  unfold create_faiss_index_from_files
  repeat' split
  all_goals
    simp only [runFs_cleanupTrace, runFs_zipFailTrace, runFs_successTrace]
  all_goals simp [runFs, initFs]

/-- C2: every invocation returns a status string paired with either no
archive path, or the fixed archive path together with the success status
reporting the input count; no exception escapes (the embedding is a total
function, and every collaborator error maps to a status-with-`none` result). -/
theorem pipeline_total_status_pair (embInit : Bool) (files : List FileObj) (env : Env) :
    (create_faiss_index_from_files embInit files env).zipPath = none ∨
    ((create_faiss_index_from_files embInit files env).zipPath = some (outputZipPath env) ∧
     (create_faiss_index_from_files embInit files env).status = successStatus files.length) := by
  unfold create_faiss_index_from_files
  repeat' split
  all_goals simp

/-- C3: when the embedding collaborator failed to initialize
(`embeddings is None`), every invocation returns the configuration-error
status with no archive and an empty filesystem trace: no scratch directory
is created and no filesystem work happens. -/
theorem config_error_fails_fast (files : List FileObj) (env : Env) :
    create_faiss_index_from_files false files env =
      ⟨configErrorStatus, none, []⟩ := rfl

/-! ### Branch evaluation helpers -/

theorem isEmpty_false_of_ne_nil {α : Type} {l : List α} (h : l ≠ []) :
    l.isEmpty = false := by
  cases l with
  | nil => exact absurd rfl h
  | cons a t => rfl

theorem allCopiesOk_true {env : Env} {files : List FileObj}
    (h : ∀ f ∈ files, env.copyFails f.name = false) :
    allCopiesOk env files = true := by
  rw [allCopiesOk, List.all_eq_true]
  intro f hf
  rw [h f hf]
  rfl

theorem allCopiesOk_false {env : Env} {files : List FileObj} {f : FileObj}
    (hm : f ∈ files) (hf : env.copyFails f.name = true) :
    allCopiesOk env files = false := by
  rcases hcase : allCopiesOk env files with _ | _
  · rfl
  · exfalso
    rw [allCopiesOk, List.all_eq_true] at hcase
    have := hcase f hm
    rw [hf] at this
    simp at this

theorem run_copyFail_eval (files : List FileObj) (env : Env) (f : FileObj)
    (hne : files ≠ []) (hm : f ∈ files) (hf : env.copyFails f.name = true) :
    create_faiss_index_from_files true files env =
      ⟨copyErrorStatus, none, setupTrace ++ copyTrace env files ++ cleanupTrace⟩ := by
  have h1 := isEmpty_false_of_ne_nil hne
  have h2 := allCopiesOk_false hm hf
  simp [create_faiss_index_from_files, h1, h2]

theorem run_noDocs_eval (files : List FileObj) (env : Env)
    (hne : files ≠ []) (hcopy : ∀ f ∈ files, env.copyFails f.name = false)
    (hdocs : documentsOf env files = []) :
    create_faiss_index_from_files true files env =
      ⟨noDocsStatus, none, setupTrace ++ copyTrace env files ++ cleanupTrace⟩ := by
  have h1 := isEmpty_false_of_ne_nil hne
  have h2 := allCopiesOk_true hcopy
  simp [create_faiss_index_from_files, h1, h2, hdocs]

theorem run_noChunks_eval (files : List FileObj) (env : Env)
    (hne : files ≠ []) (hcopy : ∀ f ∈ files, env.copyFails f.name = false)
    (hdocs : documentsOf env files ≠ [])
    (hchunks : splitDocuments 800 180 (documentsOf env files) = []) :
    create_faiss_index_from_files true files env =
      ⟨noChunksStatus, none, setupTrace ++ copyTrace env files ++ cleanupTrace⟩ := by
  have h1 := isEmpty_false_of_ne_nil hne
  have h2 := allCopiesOk_true hcopy
  have h3 := isEmpty_false_of_ne_nil hdocs
  simp [create_faiss_index_from_files, h1, h2, h3, hchunks]

theorem run_missingFiles_eval (files : List FileObj) (env : Env)
    (hne : files ≠ []) (hcopy : ∀ f ∈ files, env.copyFails f.name = false)
    (hdocs : documentsOf env files ≠ [])
    (hchunks : splitDocuments 800 180 (documentsOf env files) ≠ [])
    (hfb : env.faissBuild (splitDocuments 800 180 (documentsOf env files)) = .ok ())
    (hsl : env.saveLocal = .ok ())
    (hmiss : env.faissFileExists = false ∨ env.pklFileExists = false) :
    create_faiss_index_from_files true files env =
      ⟨processingErrorStatus (missingIndexFilesMsg env.indexDirName), none,
        setupTrace ++ copyTrace env files ++ cleanupTrace⟩ := by
  have h1 := isEmpty_false_of_ne_nil hne
  have h2 := allCopiesOk_true hcopy
  have h3 := isEmpty_false_of_ne_nil hdocs
  have h4 := isEmpty_false_of_ne_nil hchunks
  simp [create_faiss_index_from_files, h1, h2, h3, h4, hfb, hsl, hmiss]

theorem run_success_eval (files : List FileObj) (env : Env)
    (hne : files ≠ []) (hcopy : ∀ f ∈ files, env.copyFails f.name = false)
    (hdocs : documentsOf env files ≠ [])
    (hchunks : splitDocuments 800 180 (documentsOf env files) ≠ [])
    (hfb : env.faissBuild (splitDocuments 800 180 (documentsOf env files)) = .ok ())
    (hsl : env.saveLocal = .ok ())
    (hex1 : env.faissFileExists = true) (hex2 : env.pklFileExists = true)
    (hzip : env.zipWrite = .ok ()) :
    create_faiss_index_from_files true files env =
      ⟨successStatus files.length, some (outputZipPath env),
        setupTrace ++ copyTrace env files ++
          [.writeZip zipEntryNames, .rmUploadDir, .rmIndexDir]⟩ := by
  have h1 := isEmpty_false_of_ne_nil hne
  have h2 := allCopiesOk_true hcopy
  have h3 := isEmpty_false_of_ne_nil hdocs
  have h4 := isEmpty_false_of_ne_nil hchunks
  simp [create_faiss_index_from_files, h1, h2, h3, h4, hfb, hsl, hex1, hex2, hzip]

/-! ### Chunker and loader lemmas -/

theorem splitCharsAux_ne_nil (chunkSize step fuel : Nat) (l : List Char)
    (h : l ≠ []) : splitCharsAux chunkSize step fuel l ≠ [] := by
  cases fuel with
  | zero =>
    cases l with
    | nil => exact absurd rfl h
    | cons a t => simp [splitCharsAux]
  | succ n =>
    cases l with
    | nil => exact absurd rfl h
    | cons a t =>
      simp only [splitCharsAux]
      split <;> simp

theorem splitText_ne_nil (chunkSize overlap : Nat) (s : String)
    (h : s.data ≠ []) : splitText chunkSize overlap s ≠ [] := by
  rw [splitText, if_neg (fun hc => h (List.length_eq_zero.mp hc))]
  simpa using splitCharsAux_ne_nil chunkSize (chunkSize - overlap) s.data.length s.data h

theorem splitText_of_short (chunkSize overlap : Nat) (s : String)
    (h : s.data ≠ []) (hlen : s.data.length ≤ chunkSize) :
    splitText chunkSize overlap s = [s] := by
  obtain ⟨l⟩ := s
  cases l with
  | nil => exact absurd rfl h
  | cons a t =>
    have hcond : ¬(({ data := a :: t } : String).data.length = 0) :=
      Nat.succ_ne_zero t.length
    rw [splitText, if_neg hcond]
    show (splitCharsAux chunkSize (chunkSize - overlap) (a :: t).length (a :: t)).map _ = _
    rw [List.length_cons, splitCharsAux, if_pos (by simpa using hlen)]
    · rfl
    · exact List.cons_ne_nil a t

theorem string_ne_empty_iff (s : String) : s ≠ "" ↔ s.data ≠ [] := by
  rw [Ne, Ne, String.ext_iff]

theorem splitDocuments_ne_nil (chunkSize overlap : Nat) (docs : List Document)
    (d : Document) (hd : d ∈ docs) (hc : d.content ≠ "") :
    splitDocuments chunkSize overlap docs ≠ [] := by
  rw [splitDocuments, Ne, List.flatten_eq_nil_iff]
  intro hall
  have hmem : (splitText chunkSize overlap d.content).map
      (fun c => Document.mk d.source c) ∈
      docs.map (fun d => (splitText chunkSize overlap d.content).map
        (fun c => Document.mk d.source c)) :=
    List.mem_map_of_mem _ hd
  have := hall _ hmem
  rw [List.map_eq_nil_iff] at this
  exact splitText_ne_nil chunkSize overlap d.content
    ((string_ne_empty_iff d.content).mp hc) this

theorem loadTxtFile_some {env : Env} {b c : String}
    (htxt : isTxtFile b = true) (hdec : env.decode b = some c) :
    loadTxtFile env b = some (Document.mk b c) := by
  rw [loadTxtFile, if_pos htxt, hdec]
  rfl

theorem loadTxtFile_none_of_decode {env : Env} {b : String}
    (htxt : isTxtFile b = true) (hdec : env.decode b = none) :
    loadTxtFile env b = none := by
  rw [loadTxtFile, if_pos htxt, hdec]
  rfl

theorem mem_uploadedBasenames {files : List FileObj} {f : FileObj} (hf : f ∈ files) :
    basename f.name ∈ uploadedBasenames files :=
  List.mem_dedup.mpr (List.mem_map_of_mem _ hf)

theorem documentsOf_ne_nil {env : Env} {files : List FileObj} {f : FileObj} {c : String}
    (hf : f ∈ files) (htxt : isTxtFile (basename f.name) = true)
    (hdec : env.decode (basename f.name) = some c) :
    documentsOf env files ≠ [] := by
  apply List.ne_nil_of_mem (a := Document.mk (basename f.name) c)
  rw [documentsOf, List.mem_filterMap]
  exact ⟨basename f.name, mem_uploadedBasenames hf, loadTxtFile_some htxt hdec⟩

theorem documentsOf_content_ne_empty {env : Env} {files : List FileObj}
    (hvalid : ∀ f ∈ files, isTxtFile (basename f.name) = true ∧
      ∃ c, env.decode (basename f.name) = some c ∧ c ≠ "")
    {d : Document} (hd : d ∈ documentsOf env files) : d.content ≠ "" := by
  rw [documentsOf, List.mem_filterMap] at hd
  obtain ⟨b, hb, hload⟩ := hd
  rw [uploadedBasenames, List.mem_dedup, List.mem_map] at hb
  obtain ⟨f, hf, rfl⟩ := hb
  obtain ⟨htxt, c, hdec, hcne⟩ := hvalid f hf
  rw [loadTxtFile_some htxt hdec] at hload
  cases hload
  exact hcne

theorem length_filterMap_lt_of_none {α β : Type} (g : α → Option β) (l : List α)
    (a : α) (ha : a ∈ l) (hg : g a = none) :
    (l.filterMap g).length < l.length := by
  induction l with
  | nil => cases ha
  | cons b t ih =>
    rcases List.mem_cons.mp ha with rfl | hmem
    · rw [List.filterMap_cons, hg, List.length_cons]
      exact Nat.lt_succ_of_le (List.length_filterMap_le g t)
    · rw [List.filterMap_cons, List.length_cons]
      cases hgb : g b with
      | none => exact Nat.lt_succ_of_lt (ih hmem)
      | some c =>
        rw [List.length_cons]
        exact Nat.succ_lt_succ (ih hmem)

theorem copyError_ne_success (n : Nat) : copyErrorStatus ≠ successStatus n := by
  intro h
  have h2 := congrArg (fun s => s.data.head?) h
  simp [copyErrorStatus, successStatus, String.data_append] at h2

/-! ### Concrete environments for witnesses -/

/-- The text used as decodable file content in witnesses. -/
def helloText : String := "hello"

/-- An uploaded file named `a.txt`. -/
def wfileA : FileObj := ⟨"a.txt"⟩

/-- An uploaded file named `b.txt`. -/
def wfileB : FileObj := ⟨"b.txt"⟩

/-- An empty document (an empty but readable `.txt` file). -/
def wdocEmpty : Document := ⟨"a.txt", ""⟩

/-- A short nonempty document. -/
def wdocHi : Document := ⟨"a.txt", "hi"⟩

/-- A one-file batch. -/
def wfiles : List FileObj := [wfileA]

/-- A two-file batch with distinct basenames. -/
def wfiles2 : List FileObj := [wfileA, wfileB]

/-- An environment in which every external collaborator succeeds. -/
def wenv : Env where
  tmpRoot := "tmp"
  indexDirName := "tmpidx"
  copyFails := fun _ => false
  decode := fun _ => some helloText
  faissBuild := fun _ => .ok ()
  saveLocal := .ok ()
  faissFileExists := true
  pklFileExists := true
  zipWrite := .ok ()

/-- Like `wenv` but every `shutil.copy` raises. -/
def wenvCopyFail : Env := { wenv with copyFails := fun _ => true }

/-- Like `wenv` but no file decodes as text. -/
def wenvNoDecode : Env := { wenv with decode := fun _ => none }

/-- Like `wenv` but every file decodes to the empty text. -/
def wenvEmptyText : Env := { wenv with decode := fun _ => some (String.mk []) }

/-- Like `wenv` but `index.faiss` is missing after the save call. -/
def wenvNoFaissFile : Env := { wenv with faissFileExists := false }

/-- Like `wenv` but only `a.txt` decodes; `b.txt` is skipped by the loader. -/
def wenvSkip : Env :=
  { wenv with decode := fun b => if b = "a.txt" then some helloText else none }

/-! ### Claims C4 to C10 -/

/-- C4: for every non-empty batch of valid `.txt` inputs (each copy succeeds,
each basename ends in `.txt`, each file decodes to nonempty text) whose
embedding, index build/save and zip write raise no external error, the run
returns the success status reporting the input-file count, returns the
archive path, and the written archive holds exactly the two entries
`index.faiss` and `index.pkl` and no others. -/
theorem valid_batch_success (files : List FileObj) (env : Env)
    (hne : files ≠ [])
    (hvalid : ∀ f ∈ files, env.copyFails f.name = false ∧
      isTxtFile (basename f.name) = true ∧
      ∃ c, env.decode (basename f.name) = some c ∧ c ≠ "")
    (hfb : env.faissBuild (splitDocuments 800 180 (documentsOf env files)) = .ok ())
    (hsl : env.saveLocal = .ok ())
    (hex1 : env.faissFileExists = true) (hex2 : env.pklFileExists = true)
    (hzip : env.zipWrite = .ok ()) :
    (create_faiss_index_from_files true files env).status = successStatus files.length ∧
    (create_faiss_index_from_files true files env).zipPath = some (outputZipPath env) ∧
    (runFs initFs (create_faiss_index_from_files true files env).trace).zip =
      some ["index.faiss", "index.pkl"] := by
  obtain ⟨f0, hf0⟩ := List.exists_mem_of_ne_nil files hne
  obtain ⟨-, htxt, c, hdec, -⟩ := hvalid f0 hf0
  have hdocs := documentsOf_ne_nil hf0 htxt hdec
  obtain ⟨d0, hd0⟩ := List.exists_mem_of_ne_nil _ hdocs
  have hchunks := splitDocuments_ne_nil 800 180 _ d0 hd0
    (documentsOf_content_ne_empty
      (fun f hf => ⟨(hvalid f hf).2.1, (hvalid f hf).2.2⟩) hd0)
  rw [run_success_eval files env hne (fun f hf => (hvalid f hf).1) hdocs hchunks
    hfb hsl hex1 hex2 hzip]
  exact ⟨rfl, rfl, by rw [runFs_successTrace]; rfl⟩

theorem valid_batch_success_witness :
    wfiles ≠ [] ∧
    (create_faiss_index_from_files true wfiles wenv).status = successStatus 1 ∧
    (create_faiss_index_from_files true wfiles wenv).zipPath = some (outputZipPath wenv) ∧
    (runFs initFs (create_faiss_index_from_files true wfiles wenv).trace).zip =
      some ["index.faiss", "index.pkl"] := by
  have h := valid_batch_success wfiles wenv (by decide)
    (fun f hf => by
      rcases List.mem_singleton.mp hf with rfl
      exact ⟨rfl, by decide, helloText, rfl, by decide⟩)
    rfl rfl rfl rfl rfl
  exact ⟨by decide, h.1, h.2.1, h.2.2⟩

/-- C5: if any individual file copy fails, the whole batch is aborted: the
aggregate copy-failure status is returned with no archive, both scratch
directories are gone, and the status is never a success status. -/
theorem copy_failure_aborts_batch (files : List FileObj) (env : Env) (f : FileObj)
    (hne : files ≠ []) (hm : f ∈ files) (hfail : env.copyFails f.name = true) :
    (create_faiss_index_from_files true files env).status = copyErrorStatus ∧
    (create_faiss_index_from_files true files env).zipPath = none ∧
    (runFs initFs (create_faiss_index_from_files true files env).trace).uploadDir = false ∧
    (runFs initFs (create_faiss_index_from_files true files env).trace).indexDir = false ∧
    ∀ n : Nat, (create_faiss_index_from_files true files env).status ≠ successStatus n := by
  rw [run_copyFail_eval files env f hne hm hfail]
  refine ⟨rfl, rfl, ?_, ?_, fun n => copyError_ne_success n⟩
  · rw [runFs_cleanupTrace]
  · rw [runFs_cleanupTrace]

theorem copy_failure_aborts_batch_witness :
    wenvCopyFail.copyFails wfileA.name = true ∧
    (create_faiss_index_from_files true wfiles wenvCopyFail).status = copyErrorStatus ∧
    (create_faiss_index_from_files true wfiles wenvCopyFail).zipPath = none := by
  have h := copy_failure_aborts_batch wfiles wenvCopyFail wfileA
    (by decide) (by decide) rfl
  exact ⟨rfl, h.1, h.2.1⟩

/-- C6: once copying succeeded, undecodable files are skipped by the loader
(they simply do not appear in `documentsOf`, which keeps exactly the decodable
`.txt` files); the run fails at this stage only when the loaded Document set
is empty or when the loaded Documents yield zero Chunks, and each of the two
conditions is reported by its own distinct status with no archive and both
scratch directories removed. -/
theorem loader_empty_and_chunk_empty_policies (files : List FileObj) (env : Env)
    (hne : files ≠ []) (hcopy : ∀ f ∈ files, env.copyFails f.name = false) :
    (documentsOf env files = [] →
      (create_faiss_index_from_files true files env).status = noDocsStatus ∧
      (create_faiss_index_from_files true files env).zipPath = none ∧
      runFs initFs (create_faiss_index_from_files true files env).trace = initFs) ∧
    (documentsOf env files ≠ [] →
      splitDocuments 800 180 (documentsOf env files) = [] →
      (create_faiss_index_from_files true files env).status = noChunksStatus ∧
      (create_faiss_index_from_files true files env).zipPath = none ∧
      runFs initFs (create_faiss_index_from_files true files env).trace = initFs) ∧
    noDocsStatus ≠ noChunksStatus := by
  refine ⟨?_, ?_, by decide⟩
  · intro hdocs
    rw [run_noDocs_eval files env hne hcopy hdocs]
    exact ⟨rfl, rfl, by rw [runFs_cleanupTrace]; rfl⟩
  · intro hdocs hchunks
    rw [run_noChunks_eval files env hne hcopy hdocs hchunks]
    exact ⟨rfl, rfl, by rw [runFs_cleanupTrace]; rfl⟩

theorem loader_empty_and_chunk_empty_policies_witness :
    (documentsOf wenvNoDecode wfiles = [] ∧
      (create_faiss_index_from_files true wfiles wenvNoDecode).status = noDocsStatus) ∧
    (documentsOf wenvEmptyText wfiles ≠ [] ∧
      splitDocuments 800 180 (documentsOf wenvEmptyText wfiles) = [] ∧
      (create_faiss_index_from_files true wfiles wenvEmptyText).status = noChunksStatus) := by
  constructor
  · exact ⟨by decide,
      ((loader_empty_and_chunk_empty_policies wfiles wenvNoDecode (by decide)
        (fun f hf => rfl)).1 (by decide)).1⟩
  · exact ⟨by decide, by decide,
      ((loader_empty_and_chunk_empty_policies wfiles wenvEmptyText (by decide)
        (fun f hf => rfl)).2.1 (by decide) (by decide)).1⟩

/-- C7 counterexample: the claim "every Document shorter than the target
length yields exactly one Chunk equal to the whole Document" fails at the
empty Document: a Document of length 0 (< 800) yields zero Chunks, not one.
This matches both the library behaviour the source delegates to and the
source's own defensive zero-chunk check. -/
theorem chunker_empty_document_yields_no_chunk :
    wdocEmpty.content.length < 800 ∧
    splitDocuments 800 180 [wdocEmpty] = [] ∧
    splitDocuments 800 180 [wdocEmpty] ≠ [wdocEmpty] := by
  exact ⟨by decide, rfl, by decide⟩

/-- C7 (amended): chunking is the deterministic pure function
`splitDocuments` configured in the pipeline with target chunk length 800 and
overlap 180, and every nonempty Document shorter than the target length
yields exactly one Chunk equal to the whole Document. -/
theorem chunker_short_document (d : Document) (hne : d.content ≠ "")
    (hlen : d.content.length < 800) : splitDocuments 800 180 [d] = [d] := by
  obtain ⟨src, c⟩ := d
  have hd : c.data ≠ [] := (string_ne_empty_iff c).mp hne
  have hs : splitText 800 180 c = [c] :=
    splitText_of_short 800 180 c hd (le_of_lt hlen)
  simp [splitDocuments, hs]

theorem chunker_short_document_witness :
    wdocHi.content ≠ "" ∧
    wdocHi.content.length < 800 ∧
    splitDocuments 800 180 [wdocHi] = [wdocHi] :=
  ⟨by decide, by decide, chunker_short_document wdocHi (by decide) (by decide)⟩

/-- C8: when the save call returns without error but one of the two expected
artifact files is missing on disk, the run is treated as failed: the status
is the wrapped missing-files error, no archive is returned, and both scratch
directories are removed. -/
theorem postsave_missing_artifact_fails (files : List FileObj) (env : Env)
    (hne : files ≠ []) (hcopy : ∀ f ∈ files, env.copyFails f.name = false)
    (hdocs : documentsOf env files ≠ [])
    (hchunks : splitDocuments 800 180 (documentsOf env files) ≠ [])
    (hfb : env.faissBuild (splitDocuments 800 180 (documentsOf env files)) = .ok ())
    (hsl : env.saveLocal = .ok ())
    (hmiss : env.faissFileExists = false ∨ env.pklFileExists = false) :
    (create_faiss_index_from_files true files env).status =
      processingErrorStatus (missingIndexFilesMsg env.indexDirName) ∧
    (create_faiss_index_from_files true files env).zipPath = none ∧
    runFs initFs (create_faiss_index_from_files true files env).trace = initFs := by
  rw [run_missingFiles_eval files env hne hcopy hdocs hchunks hfb hsl hmiss]
  exact ⟨rfl, rfl, by rw [runFs_cleanupTrace]; rfl⟩

theorem postsave_missing_artifact_fails_witness :
    wenvNoFaissFile.saveLocal = .ok () ∧
    wenvNoFaissFile.faissFileExists = false ∧
    (create_faiss_index_from_files true wfiles wenvNoFaissFile).status =
      processingErrorStatus (missingIndexFilesMsg wenvNoFaissFile.indexDirName) ∧
    (create_faiss_index_from_files true wfiles wenvNoFaissFile).zipPath = none := by
  have h := postsave_missing_artifact_fails wfiles wenvNoFaissFile (by decide)
    (fun f hf => rfl) (by decide) (by decide) rfl rfl (Or.inl rfl)
  exact ⟨rfl, rfl, h.1, h.2.1⟩

/-- C9: whenever a run returns an archive, it is at the one fixed,
predictable path in the process-wide temporary-files area
(`gettempdir()/faiss_index_google.zip`, independent of the inputs), and the
archive written there holds the fixed entry names and replaces whatever
archive previously sat at that path — so two runs with the same inputs
produce archives with identical entry names, the second overwriting the
first. -/
theorem fixed_archive_path_and_overwrite (embInit : Bool) (files : List FileObj)
    (env : Env)
    (h : (create_faiss_index_from_files embInit files env).zipPath ≠ none) :
    (create_faiss_index_from_files embInit files env).zipPath =
      some (outputZipPath env) ∧
    ∀ prior : FsState,
      (runFs prior (create_faiss_index_from_files embInit files env).trace).zip =
        some zipEntryNames := by
  revert h
  unfold create_faiss_index_from_files
  repeat' split
  all_goals intro h
  all_goals
    first
      | exact absurd rfl h
      | exact ⟨rfl, fun prior => by rw [runFs_successTrace]⟩

theorem fixed_archive_path_and_overwrite_witness :
    (create_faiss_index_from_files true wfiles wenv).zipPath ≠ none ∧
    (create_faiss_index_from_files true wfiles wenv).zipPath =
      some (outputZipPath wenv) ∧
    (runFs (runFs initFs (create_faiss_index_from_files true wfiles wenv).trace)
        (create_faiss_index_from_files true wfiles wenv).trace).zip =
      some zipEntryNames := by
  have h := fixed_archive_path_and_overwrite true wfiles wenv (by decide)
  exact ⟨by decide, h.1, h.2 _⟩

/-- C10: in a run where copying succeeds, at least one document loads, but
some uploaded `.txt` file fails to decode and is skipped by the loader, the
returned success status still reports the length of the uploaded file list,
while the number of documents actually loaded and indexed is strictly
smaller. -/
theorem success_reports_upload_count (files : List FileObj) (env : Env)
    (hne : files ≠ [])
    (hcopy : ∀ f ∈ files, env.copyFails f.name = false)
    (hnodup : (files.map (fun f => basename f.name)).Nodup)
    (f : FileObj) (hm : f ∈ files)
    (htxt : isTxtFile (basename f.name) = true)
    (hskip : env.decode (basename f.name) = none)
    (hdocs : documentsOf env files ≠ [])
    (hchunks : splitDocuments 800 180 (documentsOf env files) ≠ [])
    (hfb : env.faissBuild (splitDocuments 800 180 (documentsOf env files)) = .ok ())
    (hsl : env.saveLocal = .ok ())
    (hex1 : env.faissFileExists = true) (hex2 : env.pklFileExists = true)
    (hzip : env.zipWrite = .ok ()) :
    (create_faiss_index_from_files true files env).status = successStatus files.length ∧
    (documentsOf env files).length < files.length := by
  constructor
  · rw [run_success_eval files env hne hcopy hdocs hchunks hfb hsl hex1 hex2 hzip]
  · have hded : (files.map (fun f => basename f.name)).dedup =
        files.map (fun f => basename f.name) := List.dedup_eq_self.mpr hnodup
    have hlt : (documentsOf env files).length <
        (files.map (fun f => basename f.name)).length := by
      rw [documentsOf, uploadedBasenames, hded]
      exact length_filterMap_lt_of_none _ _ (basename f.name)
        (List.mem_map_of_mem _ hm) (loadTxtFile_none_of_decode htxt hskip)
    simpa using hlt

theorem success_reports_upload_count_witness :
    (create_faiss_index_from_files true wfiles2 wenvSkip).status = successStatus 2 ∧
    (documentsOf wenvSkip wfiles2).length < wfiles2.length := by
  have h := success_reports_upload_count wfiles2 wenvSkip (by decide)
    (fun f hf => rfl) (by decide) wfileB (by decide) (by decide) (by decide)
    (by decide) (by decide) rfl rfl rfl rfl rfl
  exact ⟨h.1, h.2⟩
